import Mathlib

/-!
Shallow embedding of the lite-rpc request dispatcher
(src/src/errors.ts and src/src/index.ts).

Conventions of the embedding:
* JavaScript runtime values that flow through the dispatcher are modelled by
  the inductive type JSValue; the distinguished value undefined is a
  constructor, since the code tests for it with strict equality.
* Asynchronous computations that may reject are modelled by Outcome: either
  a resolved value or a thrown JavaScript value (JSThrown).  A thrown value
  is classified the way the catch clauses of process classify it: an
  instance of LiteRPCError, an ordinary Error, or any other value.
* Handlers registered through add are wrapped by the library in an async
  closure, so a handler failure always reaches process as a rejection of the
  awaited promise (never as a synchronous throw); wrapHandler reflects the
  wrapping done inside add.
* The optional id field of a request is an Option String.  The branch of
  process for an unknown method tests the id with JavaScript truthiness
  (if (request.id)), under which the empty string is falsy; the invocation
  branch tests it against undefined.  Both tests are translated literally.
-/

namespace LiteRPC

/-- JavaScript values carried opaquely through the dispatcher. -/
inductive JSValue : Type where
  | null : JSValue
  | undefined : JSValue
  | bool (b : Bool) : JSValue
  | num (n : Int) : JSValue
  | str (s : String) : JSValue
  | arr (elems : List JSValue) : JSValue
  | obj (fields : List (String × JSValue)) : JSValue

/-- The keys of the RPCErrorCodes table in src/src/errors.ts; the TypeScript
constructor argument type keyof typeof RPCErrorCodes ranges over exactly
these five names. -/
inductive RPCErrorCodeName : Type where
  | PARSE_ERROR
  | INVALID_REQUEST
  | METHOD_NOT_FOUND
  | INVALID_PARAMS
  | INTERNAL_ERROR
deriving DecidableEq

/-- The fixed protocol-code table RPCErrorCodes of src/src/errors.ts. -/
def RPCErrorCodes : RPCErrorCodeName → Int
  | .PARSE_ERROR => -32700
  | .INVALID_REQUEST => -32600
  | .METHOD_NOT_FOUND => -32601
  | .INVALID_PARAMS => -32602
  | .INTERNAL_ERROR => -32603

/-- An instance of the LiteRPCError class: its code and message fields. -/
structure LiteRPCError : Type where
  code : Int
  message : String
deriving DecidableEq

/-- The first constructor argument of LiteRPCError:
either a symbolic name (keyof typeof RPCErrorCodes) or a raw integer. -/
inductive ErrorCodeArg : Type where
  | name (n : RPCErrorCodeName)
  | raw (c : Int)

/-- The resolution step of the constructor:
typeof code === "string" ? RPCErrorCodes[code] : code. -/
def resolveErrorCode : ErrorCodeArg → Int
  | .name n => RPCErrorCodes n
  | .raw c => c

/-- The body of the LiteRPCError constructor.  It throws (Except.error) the
message of the plain Error raised when the resolved code fails the range
check resolved < -32099 || resolved > -32000. -/
def LiteRPCError.construct (code : ErrorCodeArg) (message : String) :
    Except String LiteRPCError :=
  let resolved := resolveErrorCode code
  if resolved < -32099 ∨ resolved > -32000 then
    Except.error "Invalid error code"
  else
    Except.ok ⟨resolved, message⟩

/-- An ordinary JavaScript Error object (only the data the dispatcher
inspects: it is passed whole to the onError mapper). -/
structure JSError : Type where
  name : String
  message : String
deriving DecidableEq

/-- A thrown JavaScript value, classified the way the catch clause of
process classifies it with instanceof. -/
inductive JSThrown : Type where
  | rpc (e : LiteRPCError)
  | err (e : JSError)
  | nonError (v : JSValue)

/-- Result of an asynchronous computation: resolved or rejected. -/
inductive Outcome (α : Type) : Type where
  | ok (v : α)
  | thrown (t : JSThrown)

/-- The RPCErrorData shape: code and message of an error envelope. -/
structure RPCErrorData : Type where
  code : Int
  message : String

/-- An RPCRequest.  The jsonrpc field is the constant string "2.0" and is
not recorded; id is absent (a notification) or a string; params is the
value of the optional params field, undefined when absent, exactly as the
code passes request.params to the validator. -/
structure RPCRequest : Type where
  method : String
  id : Option String
  params : JSValue

/-- The RPCResult union: success with a result, or an error envelope. -/
inductive RPCResult : Type where
  | success (id : String) (result : JSValue)
  | errored (id : String) (error : RPCErrorData)

/-- The id carried by a result (both variants carry one). -/
def RPCResult.rid : RPCResult → String
  | .success i _ => i
  | .errored i _ => i

/-- The value returned by the reply helper: the payload spread under
jsonrpc: "2.0". -/
structure RPCReply : Type where
  jsonrpc : String
  result : RPCResult

/-- The reply helper of src/src/index.ts. -/
def reply (r : RPCResult) : RPCReply := ⟨"2.0", r⟩

/-- The MethodHandlerData shape handed to a handler. -/
structure MethodHandlerData (Ctx : Type) : Type where
  context : Ctx
  params : JSValue

/-- A registered method descriptor: name, validator (the parse member of the
Parsable schema, which may throw) and handler (async, hence returning an
Outcome). -/
structure Method (Ctx : Type) : Type where
  name : String
  schema : JSValue → Outcome JSValue
  handler : MethodHandlerData Ctx → Outcome JSValue

/-- A LiteRPCGroup is its methods array. -/
structure LiteRPCGroup (Ctx : Type) : Type where
  methods : List (Method Ctx)

/-- The app constructor options: the onError mapper and the root group. -/
structure LiteRPCAppConfig (Ctx : Type) : Type where
  onError : JSError → RPCErrorData
  group : LiteRPCGroup Ctx

/-- A LiteRPCApp instance (the request member simply calls process, so only
the config is recorded). -/
structure LiteRPCApp (Ctx : Type) : Type where
  config : LiteRPCAppConfig Ctx

/-- The process function of src/src/index.ts, translated clause by clause.

* Lookup: app.config.group.methods.find(p => p.name === request.method).
* Method not found: if (request.id) — string truthiness, so a present but
  empty id falls through to return null — reply with METHOD_NOT_FOUND;
  otherwise return null.
* Method found: params = method.schema.parse(request.params) runs outside
  every try block, so a validator throw rejects process itself.
* Notification (request.id === undefined): the handler rejection is
  swallowed and null is returned.
* Otherwise the awaited handler outcome is mapped: success envelope, or the
  catch clause: LiteRPCError passed through verbatim, other Error routed
  through the onError mapper, any other thrown value mapped to the
  hardcoded INTERNAL_ERROR envelope. -/
def process {Ctx : Type} (request : RPCRequest) (app : LiteRPCApp Ctx)
    (context : Ctx) : Outcome (Option RPCReply) :=
  match app.config.group.methods.find? (fun p => p.name == request.method) with
  | none =>
    match request.id with
    | some i =>
      if i != "" then
        .ok (some (reply (.errored i
          ⟨RPCErrorCodes .METHOD_NOT_FOUND, "Method not found"⟩)))
      else
        .ok none
    | none => .ok none
  | some method =>
    match method.schema request.params with
    | .thrown t => .thrown t
    | .ok params =>
      let run := method.handler ⟨context, params⟩
      match request.id with
      | none => .ok none
      | some i =>
        match run with
        | .ok result => .ok (some (reply (.success i result)))
        | .thrown t =>
          match t with
          | .rpc e => .ok (some (reply (.errored i ⟨e.code, e.message⟩)))
          | .err e => .ok (some (reply (.errored i (app.config.onError e))))
          | .nonError _ => .ok (some (reply (.errored i
              ⟨RPCErrorCodes .INTERNAL_ERROR, "Something went wrong"⟩)))

/-- The schema installed by add when none is supplied: a parse member that
ignores its argument and returns null. -/
def defaultSchema : JSValue → Outcome JSValue := fun _ => .ok JSValue.null

/-- The async wrapper that add places around the user handler: it awaits the
result and normalizes undefined to null; a rejection passes through. -/
def wrapHandler {Ctx : Type}
    (handler : MethodHandlerData Ctx → Outcome JSValue) :
    MethodHandlerData Ctx → Outcome JSValue :=
  fun data =>
    match handler data with
    | .ok JSValue.undefined => .ok JSValue.null
    | o => o

/-- The add member of a group: throws (Except.error) on a duplicate name,
otherwise returns a new group with the wrapped method appended.  The schema
argument is Option-al, matching the two overloads of add. -/
def LiteRPCGroup.add {Ctx : Type} (g : LiteRPCGroup Ctx) (nm : String)
    (schema : Option (JSValue → Outcome JSValue))
    (handler : MethodHandlerData Ctx → Outcome JSValue) :
    Except String (LiteRPCGroup Ctx) :=
  if g.methods.any (fun m => m.name == nm) then
    Except.error
      ("Cannot add method " ++ nm ++
        " because a method with that name already exists.")
  else
    Except.ok ⟨g.methods ++ [⟨nm, schema.getD defaultSchema, wrapHandler handler⟩]⟩

/-- The merge member of a group: group([...methods, ...app.methods]) — a
plain concatenation, with no duplicate check. -/
def LiteRPCGroup.merge {Ctx : Type} (g₁ g₂ : LiteRPCGroup Ctx) :
    LiteRPCGroup Ctx :=
  ⟨g₁.methods ++ g₂.methods⟩

/-- The RPCId template-literal type of src/src/index.ts: strings of the
shape rpc_<rest>.  A well-typed present id therefore begins with the four
characters r, p, c, underscore. -/
def isRPCId (s : String) : Bool := "rpc_".data.isPrefixOf s.data

/-! ## Concrete fixtures used by counterexamples and witnesses -/

/-- A handler that resolves to null. -/
def nullHandler : MethodHandlerData Unit → Outcome JSValue :=
  fun _ => .ok JSValue.null

/-- A handler that resolves to undefined (no content). -/
def undefHandler : MethodHandlerData Unit → Outcome JSValue :=
  fun _ => .ok JSValue.undefined

/-- A validator whose parse member throws an ordinary Error, as a Zod-style
schema does on malformed input. -/
def throwingSchema : JSValue → Outcome JSValue :=
  fun _ => .thrown (.err ⟨"Error", "bad params"⟩)

/-- A one-method group whose validator always throws. -/
def badParamsGroup : LiteRPCGroup Unit :=
  ⟨[⟨"m", throwingSchema, wrapHandler nullHandler⟩]⟩

/-- An app over badParamsGroup with an ordinary onError mapper. -/
def badParamsApp : LiteRPCApp Unit :=
  ⟨⟨fun e => ⟨-32000, e.message⟩, badParamsGroup⟩⟩

/-- An app with no registered methods. -/
def emptyApp : LiteRPCApp Unit :=
  ⟨⟨fun e => ⟨-32000, e.message⟩, ⟨[]⟩⟩⟩

/-- A one-method group (name a) as produced by add on the empty group. -/
def dupGroupA : LiteRPCGroup Unit :=
  ⟨[⟨"a", defaultSchema, wrapHandler nullHandler⟩]⟩

/-- An app over dupGroupA. -/
def dupApp : LiteRPCApp Unit :=
  ⟨⟨fun e => ⟨-32000, e.message⟩, dupGroupA⟩⟩

/-- A one-method group whose handler resolves to undefined, as produced by
add on the empty group. -/
def undefGroup : LiteRPCGroup Unit :=
  ⟨[⟨"m", defaultSchema, wrapHandler undefHandler⟩]⟩

/-- A handler that throws an ordinary (non-LiteRPC) Error. -/
def throwErrHandler : MethodHandlerData Unit → Outcome JSValue :=
  fun _ => .thrown (.err ⟨"TypeError", "oops"⟩)

/-- A one-method group whose handler throws an ordinary Error. -/
def throwErrGroup : LiteRPCGroup Unit :=
  ⟨[⟨"m", defaultSchema, throwErrHandler⟩]⟩

/-- An app over throwErrGroup whose mapper reports the failure message under
the application code -32050. -/
def throwErrApp : LiteRPCApp Unit :=
  ⟨⟨fun e => ⟨-32050, e.message⟩, throwErrGroup⟩⟩

/-! ## Helper lemmas -/

/-- A well-typed RPCId is truthy: it is not the empty string. -/
theorem isRPCId_bne_empty {s : String} (h : isRPCId s = true) :
    (s != "") = true := by
  have hne : s ≠ "" := by
    intro he
    subst he
    simp [isRPCId] at h
  simp [bne_iff_ne, hne]

/-! ## Claims -/

/-- Claim C1 (code bug): constructing a LiteRPCError with a symbolic name
from the fixed protocol-code table does NOT succeed.  The constructor
resolves INTERNAL_ERROR to -32603 and then rejects it, because the range
check resolved < -32099 || resolved > -32000 only admits the application
range; every one of the five protocol codes lies outside it.  So the
Scenario C handler, new LiteRPCError("INTERNAL_ERROR", "boom"), throws a
plain Error("Invalid error code") at construction time instead of
producing the envelope code -32603 with message "boom", although the
constructor signature advertises the symbolic names and the README and
example of the repository use exactly this call. -/
theorem C1_symbolic_construction_throws :
    LiteRPCError.construct (.name .INTERNAL_ERROR) "boom" =
      Except.error "Invalid error code" := rfl

/-- Claim C5 (confirmed): for every request whose method matches no
registered descriptor and whose id is present (a well-typed RPCId, hence
truthy), process resolves to the envelope
jsonrpc "2.0", id, error code -32601, message "Method not found". -/
theorem C5_method_not_found_envelope {Ctx : Type} (app : LiteRPCApp Ctx)
    (ctx : Ctx) (req : RPCRequest) (s : String)
    (hid : req.id = some s) (hs : isRPCId s = true)
    (hfind : app.config.group.methods.find?
      (fun p => p.name == req.method) = none) :
    process req app ctx =
      Outcome.ok (some ⟨"2.0", .errored s ⟨-32601, "Method not found"⟩⟩) := by
  have hb : (s != "") = true := isRPCId_bne_empty hs
  simp [process, hfind, hid, hb, reply, RPCErrorCodes]

/-- Witness for C5, Scenario B of the spec: an unknown method with id
rpc_2 yields the method-not-found envelope. -/
theorem C5_witness :
    process ⟨"missing", some "rpc_2", JSValue.undefined⟩ emptyApp () =
      Outcome.ok (some ⟨"2.0", .errored "rpc_2" ⟨-32601, "Method not found"⟩⟩) :=
  C5_method_not_found_envelope emptyApp ()
    ⟨"missing", some "rpc_2", JSValue.undefined⟩ "rpc_2" rfl rfl rfl

/-- Claim C7 (confirmed): constructing a LiteRPCError with the raw code
-32000 succeeds with that code stored, while raw codes -31999 and -32100
throw at construction time. -/
theorem C7_raw_code_range (msg : String) :
    LiteRPCError.construct (.raw (-32000)) msg = Except.ok ⟨-32000, msg⟩
    ∧ LiteRPCError.construct (.raw (-31999)) msg =
        Except.error "Invalid error code"
    ∧ LiteRPCError.construct (.raw (-32100)) msg =
        Except.error "Invalid error code" := by
  refine ⟨?_, ?_, ?_⟩ <;> rfl

/-- Witness for C7 at the concrete message boom. -/
theorem C7_witness :
    LiteRPCError.construct (.raw (-32000)) "boom" = Except.ok ⟨-32000, "boom"⟩
    ∧ LiteRPCError.construct (.raw (-31999)) "boom" =
        Except.error "Invalid error code"
    ∧ LiteRPCError.construct (.raw (-32100)) "boom" =
        Except.error "Invalid error code" :=
  C7_raw_code_range "boom"

/-- Claim C10 (confirmed): the two branches of process test a present id
differently.  The method-not-found branch uses JavaScript truthiness, so a
request whose id is the empty string is treated as a notification there
(process resolves to null); the invocation branch compares the id against
undefined only, so the same empty-string id flows into a success or error
envelope once the method is registered (and its validator parses). -/
theorem C10_empty_id_inconsistency {Ctx : Type} (app : LiteRPCApp Ctx)
    (ctx : Ctx) (req : RPCRequest) (hid : req.id = some "") :
    (app.config.group.methods.find? (fun p => p.name == req.method) = none →
      process req app ctx = Outcome.ok none)
    ∧ (∀ (m : Method Ctx) (q : JSValue),
        app.config.group.methods.find? (fun p => p.name == req.method) = some m →
        m.schema req.params = Outcome.ok q →
        ∃ r : RPCResult,
          process req app ctx = Outcome.ok (some ⟨"2.0", r⟩) ∧ r.rid = "") := by
  constructor
  · intro hfind
    simp [process, hfind, hid]
  · intro m q hfind hparse
    cases hrun : m.handler ⟨ctx, q⟩ with
    | ok v =>
      exact ⟨.success "" v, by simp [process, hfind, hid, hparse, hrun, reply], rfl⟩
    | thrown t =>
      cases t with
      | rpc e =>
        exact ⟨.errored "" ⟨e.code, e.message⟩,
          by simp [process, hfind, hid, hparse, hrun, reply], rfl⟩
      | err e =>
        exact ⟨.errored "" (app.config.onError e),
          by simp [process, hfind, hid, hparse, hrun, reply], rfl⟩
      | nonError v =>
        exact ⟨.errored "" ⟨-32603, "Something went wrong"⟩,
          by simp [process, hfind, hid, hparse, hrun, reply, RPCErrorCodes], rfl⟩

/-- Witness for C10: with id the empty string, an unknown method gives no
reply, while a registered method gives an envelope whose id is the empty
string. -/
theorem C10_witness :
    process ⟨"missing", some "", JSValue.undefined⟩ emptyApp () = Outcome.ok none
    ∧ ∃ r : RPCResult,
        process ⟨"a", some "", JSValue.undefined⟩ dupApp () =
          Outcome.ok (some ⟨"2.0", r⟩) ∧ r.rid = "" :=
  ⟨(C10_empty_id_inconsistency emptyApp ()
      ⟨"missing", some "", JSValue.undefined⟩ rfl).1 rfl,
   (C10_empty_id_inconsistency dupApp ()
      ⟨"a", some "", JSValue.undefined⟩ rfl).2
      ⟨"a", defaultSchema, wrapHandler nullHandler⟩ JSValue.null rfl rfl⟩

/-- Counterexample to claim C2 as stated: the line
params = method.schema.parse(request.params) of process runs outside every
try block, so when the validator of a matched method throws, the rejection
escapes process itself — even for a request carrying an id.  The group here
is reachable through add (first conjunct), and processing a request with id
rpc_1 against it rejects with the validator failure instead of resolving to
an error envelope (second conjunct). -/
theorem C2_counterexample :
    (LiteRPCGroup.mk ([] : List (Method Unit))).add "m"
        (some throwingSchema) nullHandler = Except.ok badParamsGroup
    ∧ process ⟨"m", some "rpc_1", JSValue.null⟩ badParamsApp () =
        Outcome.thrown (.err ⟨"Error", "bad params"⟩) :=
  ⟨rfl, rfl⟩

/-- Claim C2 (amended): for a non-notification request (id present and
well-typed), process resolves — never rejects — whenever the method is
unknown, or the matched method's validator parses the params (after which
any handler outcome, success or failure of any shape, is mapped to an
envelope).  A synchronous validator throw, however, propagates out of
process; see the counterexample. -/
theorem C2_amended_always_resolves {Ctx : Type} (app : LiteRPCApp Ctx)
    (ctx : Ctx) (req : RPCRequest) (s : String)
    (hid : req.id = some s) (hs : isRPCId s = true)
    (hcase : app.config.group.methods.find?
        (fun p => p.name == req.method) = none
      ∨ ∃ (m : Method Ctx) (q : JSValue),
          app.config.group.methods.find? (fun p => p.name == req.method) = some m
          ∧ m.schema req.params = Outcome.ok q) :
    ∃ r : RPCReply, process req app ctx = Outcome.ok (some r) := by
  have hb : (s != "") = true := isRPCId_bne_empty hs
  rcases hcase with hfind | ⟨m, q, hfind, hparse⟩
  · exact ⟨⟨"2.0", .errored s ⟨RPCErrorCodes .METHOD_NOT_FOUND, "Method not found"⟩⟩,
      by simp [process, hfind, hid, hb, reply]⟩
  · cases hrun : m.handler ⟨ctx, q⟩ with
    | ok v =>
      exact ⟨⟨"2.0", .success s v⟩,
        by simp [process, hfind, hid, hparse, hrun, reply]⟩
    | thrown t =>
      cases t with
      | rpc e =>
        exact ⟨⟨"2.0", .errored s ⟨e.code, e.message⟩⟩,
          by simp [process, hfind, hid, hparse, hrun, reply]⟩
      | err e =>
        exact ⟨⟨"2.0", .errored s (app.config.onError e)⟩,
          by simp [process, hfind, hid, hparse, hrun, reply]⟩
      | nonError v =>
        exact ⟨⟨"2.0", .errored s ⟨RPCErrorCodes .INTERNAL_ERROR, "Something went wrong"⟩⟩,
          by simp [process, hfind, hid, hparse, hrun, reply]⟩

/-- Witness for the amended C2: an unknown method with id rpc_9 resolves. -/
theorem C2_amended_witness :
    ∃ r : RPCReply,
      process ⟨"missing", some "rpc_9", JSValue.undefined⟩ emptyApp () =
        Outcome.ok (some r) :=
  C2_amended_always_resolves emptyApp ()
    ⟨"missing", some "rpc_9", JSValue.undefined⟩ "rpc_9" rfl rfl (Or.inl rfl)

/-- Counterexample to claim C3 as stated: for a notification (no id) whose
matched method has a throwing validator, the parse call still runs before
the notification check and outside every try block, so the rejection
escapes process instead of resolving to null. -/
theorem C3_counterexample :
    process ⟨"m", none, JSValue.null⟩ badParamsApp () =
      Outcome.thrown (.err ⟨"Error", "bad params"⟩) := rfl

/-- Claim C3 (amended): a notification always resolves to null when the
method is unknown (the lookup misses, so no handler is consulted) or when
the matched method's validator parses the params — the handler outcome,
success or failure, is then swallowed.  A synchronous validator throw,
however, propagates out of process; see the counterexample. -/
theorem C3_amended_notification_null {Ctx : Type} (app : LiteRPCApp Ctx)
    (ctx : Ctx) (req : RPCRequest) (hid : req.id = none)
    (hcase : app.config.group.methods.find?
        (fun p => p.name == req.method) = none
      ∨ ∃ (m : Method Ctx) (q : JSValue),
          app.config.group.methods.find? (fun p => p.name == req.method) = some m
          ∧ m.schema req.params = Outcome.ok q) :
    process req app ctx = Outcome.ok none := by
  rcases hcase with hfind | ⟨m, q, hfind, hparse⟩
  · simp [process, hfind, hid]
  · simp [process, hfind, hid, hparse]

/-- Witness for the amended C3: a notification for an unknown method
resolves to null. -/
theorem C3_amended_witness :
    process ⟨"missing", none, JSValue.undefined⟩ emptyApp () =
      Outcome.ok none :=
  C3_amended_notification_null emptyApp ()
    ⟨"missing", none, JSValue.undefined⟩ rfl (Or.inl rfl)

/-- Counterexample to claim C4 as stated: merge performs no duplicate scan
at all.  The one-method group dupGroupA (name a, reachable through add —
first conjunct) merged with itself returns normally — merge in the source
is group([...methods, ...app.methods]) with no check, so in the embedding
it is a total function — and the result even contains the duplicated name
twice (second conjunct), refuting that merge of intersecting groups fails. -/
theorem C4_counterexample :
    (LiteRPCGroup.mk ([] : List (Method Unit))).add "a" none nullHandler =
        Except.ok dupGroupA
    ∧ (dupGroupA.merge dupGroupA).methods.map Method.name = ["a", "a"] :=
  ⟨rfl, rfl⟩

/-- Claim C4 (amended): add on a group that already contains the name
throws the duplicate-name error, regardless of the position of the
duplicate (the check scans the whole methods array); merge, however,
performs no duplicate check and returns the plain concatenation of both
sides, succeeding even when the name sets intersect. -/
theorem C4_amended_add_checks_merge_concats {Ctx : Type}
    (g g₁ g₂ : LiteRPCGroup Ctx) (nm : String)
    (sch : Option (JSValue → Outcome JSValue))
    (hd : MethodHandlerData Ctx → Outcome JSValue)
    (hdup : g.methods.any (fun m => m.name == nm) = true) :
    g.add nm sch hd = Except.error
      ("Cannot add method " ++ nm ++
        " because a method with that name already exists.")
    ∧ (g₁.merge g₂).methods = g₁.methods ++ g₂.methods := by
  refine ⟨?_, rfl⟩
  simp [LiteRPCGroup.add, hdup]

/-- Witness for the amended C4: adding the name a to dupGroupA throws, and
merging dupGroupA with itself concatenates. -/
theorem C4_amended_witness :
    dupGroupA.add "a" none nullHandler = Except.error
      ("Cannot add method a because a method with that name already exists.")
    ∧ (dupGroupA.merge dupGroupA).methods =
        dupGroupA.methods ++ dupGroupA.methods :=
  C4_amended_add_checks_merge_concats dupGroupA dupGroupA dupGroupA "a"
    none nullHandler rfl

/-- Claim C6 (confirmed): for an unclassified failure on a request with an
id — after the validator parsed — the catch clause of process maps a thrown
ordinary Error (not a LiteRPCError) to an envelope holding exactly what the
configured onError mapper returns for it, and maps any thrown value that is
not an Error object to the hardcoded envelope code -32603 with message
"Something went wrong"; in the latter case the envelope is the same for
every possible onError mapper, so the mapper is never consulted. -/
theorem C6_unclassified_failure_mapping {Ctx : Type} (app : LiteRPCApp Ctx)
    (ctx : Ctx) (req : RPCRequest) (s : String) (m : Method Ctx) (q : JSValue)
    (hid : req.id = some s)
    (hfind : app.config.group.methods.find?
      (fun p => p.name == req.method) = some m)
    (hparse : m.schema req.params = Outcome.ok q) :
    (∀ e : JSError, m.handler ⟨ctx, q⟩ = Outcome.thrown (.err e) →
      process req app ctx =
        Outcome.ok (some ⟨"2.0", .errored s (app.config.onError e)⟩))
    ∧ (∀ (v : JSValue) (f : JSError → RPCErrorData),
        m.handler ⟨ctx, q⟩ = Outcome.thrown (.nonError v) →
        process req ⟨⟨f, app.config.group⟩⟩ ctx =
          Outcome.ok (some ⟨"2.0",
            .errored s ⟨-32603, "Something went wrong"⟩⟩)) := by
  constructor
  · intro e hrun
    simp [process, hfind, hid, hparse, hrun, reply]
  · intro v f hrun
    simp [process, hfind, hid, hparse, hrun, reply, RPCErrorCodes]

/-- Witness for C6: a handler throwing an ordinary TypeError is routed
through the configured mapper, which reports its message under -32050. -/
theorem C6_witness :
    process ⟨"m", some "rpc_6", JSValue.undefined⟩ throwErrApp () =
      Outcome.ok (some ⟨"2.0", .errored "rpc_6" ⟨-32050, "oops"⟩⟩) :=
  (C6_unclassified_failure_mapping throwErrApp ()
      ⟨"m", some "rpc_6", JSValue.undefined⟩ "rpc_6"
      ⟨"m", defaultSchema, throwErrHandler⟩ JSValue.null rfl rfl rfl).1
    ⟨"TypeError", "oops"⟩ rfl

/-- Claim C8 (confirmed): a method registered through add wraps the user
handler so that a resolved undefined is normalized to null; hence a request
with a present id whose validator parses and whose user handler resolves to
undefined yields a success envelope whose result is exactly null. -/
theorem C8_undefined_result_is_null {Ctx : Type} (g g' : LiteRPCGroup Ctx)
    (nm : String) (sch : Option (JSValue → Outcome JSValue))
    (hd : MethodHandlerData Ctx → Outcome JSValue)
    (onErr : JSError → RPCErrorData) (ctx : Ctx) (req : RPCRequest)
    (s : String) (q : JSValue)
    (hadd : g.add nm sch hd = Except.ok g')
    (hmeth : req.method = nm) (hid : req.id = some s)
    (hparse : (sch.getD defaultSchema) req.params = Outcome.ok q)
    (hh : hd ⟨ctx, q⟩ = Outcome.ok JSValue.undefined) :
    process req ⟨⟨onErr, g'⟩⟩ ctx =
      Outcome.ok (some ⟨"2.0", .success s JSValue.null⟩) := by
  unfold LiteRPCGroup.add at hadd
  split at hadd
  · exact absurd hadd (by simp)
  next hne =>
    simp only [Bool.not_eq_true] at hne
    injection hadd with hg'
    have hfind : g'.methods.find? (fun p => p.name == req.method) =
        some ⟨nm, sch.getD defaultSchema, wrapHandler hd⟩ := by
      rw [← hg']
      rw [List.find?_append]
      have h1 : g.methods.find? (fun p => p.name == req.method) = none := by
        rw [hmeth]
        exact List.find?_eq_none.mpr (List.any_eq_false.mp hne)
      rw [h1, hmeth]
      simp
    have hwrap : wrapHandler hd ⟨ctx, q⟩ = Outcome.ok JSValue.null := by
      simp [wrapHandler, hh]
    simp [process, hfind, hid, hparse, hwrap, reply]

/-- Witness for C8: the method m, added with no schema and a handler that
resolves to undefined, answers a request with id rpc_8 with result null. -/
theorem C8_witness :
    process ⟨"m", some "rpc_8", JSValue.undefined⟩
        ⟨⟨fun e => ⟨-32000, e.message⟩, undefGroup⟩⟩ () =
      Outcome.ok (some ⟨"2.0", .success "rpc_8" JSValue.null⟩) :=
  C8_undefined_result_is_null ⟨[]⟩ undefGroup "m" none undefHandler
    (fun e => ⟨-32000, e.message⟩) () ⟨"m", some "rpc_8", JSValue.undefined⟩
    "rpc_8" JSValue.null rfl rfl rfl rfl rfl

/-- Claim C9 (confirmed): add and merge are persistent constructions.  In
the source both build a fresh methods array with the spread operator and
never write to their inputs; in the embedding groups are immutable values,
and this theorem pins down the result structure: a successful add returns a
group whose methods are the originals with the wrapped addition appended,
and merge returns a group whose methods are the concatenation of both
sides, each input left as it was. -/
theorem C9_add_merge_persistent {Ctx : Type} (g g' g₁ g₂ : LiteRPCGroup Ctx)
    (nm : String) (sch : Option (JSValue → Outcome JSValue))
    (hd : MethodHandlerData Ctx → Outcome JSValue)
    (hadd : g.add nm sch hd = Except.ok g') :
    g'.methods = g.methods ++ [⟨nm, sch.getD defaultSchema, wrapHandler hd⟩]
    ∧ (g₁.merge g₂).methods = g₁.methods ++ g₂.methods := by
  refine ⟨?_, rfl⟩
  unfold LiteRPCGroup.add at hadd
  split at hadd
  · exact absurd hadd (by simp)
  · injection hadd with hg'
    rw [← hg']

/-- Witness for C9 at concrete groups. -/
theorem C9_witness :
    undefGroup.methods =
      (LiteRPCGroup.mk ([] : List (Method Unit))).methods ++
        [⟨"m", defaultSchema, wrapHandler undefHandler⟩]
    ∧ (dupGroupA.merge dupGroupA).methods =
        dupGroupA.methods ++ dupGroupA.methods :=
  C9_add_merge_persistent ⟨[]⟩ undefGroup dupGroupA dupGroupA "m"
    none undefHandler rfl

end LiteRPC
